import Mathlib

/-!
Shallow embedding of the iosify repository's gesture/decision engine
(src/src/components/Sheet/index.tsx), its portal container helper
(src/src/HOCs/withPortal.tsx) and the throttle utility, together with
theorems checking the specification's claims about them.

Coordinates, timestamps and derived scalars are modelled as rationals;
JavaScript's division-by-zero values (Infinity/NaN) are modelled
explicitly where the source divides without a guard, and the JS falsy
fallback `x || y` on nullable numbers is modelled by `jsOr`.
-/

namespace Iosify

/-- Drag direction, from the `'up' | 'down'` union in the source. -/
inductive Direction where
  | up
  | down
deriving DecidableEq, Repr

/-- The `dragState` record of the Sheet component (lines 13-21). -/
structure DragState where
  startY : Option ℚ
  currentY : Option ℚ
  startTime : Option ℚ
  isDragging : Bool
  direction : Option Direction
  totalDistance : ℚ
  totalTime : ℚ
deriving DecidableEq, Repr

/-- The empty drag state: the initial `useState` value (lines 13-21),
identical to the reset value written by `endDrag` (lines 131-139). -/
def emptyDrag : DragState :=
  { startY := none
    currentY := none
    startTime := none
    isDragging := false
    direction := none
    totalDistance := 0
    totalTime := 0 }

/-- Observable state of one Sheet instance: drag session, overlay
opacity, the translateY offset applied to the content element, and the
host-owned `isOpened` flag. -/
structure SheetState where
  drag : DragState
  overlayOpacity : ℚ
  contentOffset : ℚ
  isOpened : Bool
deriving DecidableEq, Repr

/-- A freshly mounted sheet: empty session, `overlayOpacity` initial
value 0 (line 22), no transform. -/
def initialSheet : SheetState :=
  { drag := emptyDrag
    overlayOpacity := 0
    contentOffset := 0
    isOpened := true }

/-- JS `v || fallback` on a nullable number: `null` and `0` are both
falsy, every other number is truthy. -/
def jsOr (v : Option ℚ) (fallback : ℚ) : ℚ :=
  match v with
  | some x => if x = 0 then fallback else x
  | none => fallback

/-- `startDrag(y)` at wall-clock time `t` (lines 45-58): overwrites the
session unconditionally. -/
def startDrag (y t : ℚ) (st : SheetState) : SheetState :=
  { st with
    drag :=
      { startY := some y
        currentY := none
        startTime := some t
        isDragging := true
        direction := none
        totalDistance := 0
        totalTime := 0 } }

/-- The adjusted drag distance of `dragMove` (lines 64-69): downward
(`d > 0`) passes through 1:1; upward is damped by the 0.1 resistance
factor and clamped at `-(H * 0.01)`. -/
def adjustedDragDistance (H d : ℚ) : ℚ :=
  let resistance : ℚ := 0.1
  let maxUpwardDrag : ℚ := H * 0.01
  if d > 0 then d else max (-maxUpwardDrag) (d * resistance)

/-- The overlay opacity computed by `dragMove` (lines 82-85): fades
with downward displacement, floor 0 at half the viewport height; full
opacity for upward movement. -/
def moveOpacity (H d : ℚ) : ℚ :=
  let maxDragDistance : ℚ := H * 0.5
  if d > 0 then max 0 (1 - |d| / maxDragDistance) else 1

/-- `dragMove(y)` at wall-clock time `t` with viewport height `H`
(lines 61-91). Returns the state unchanged when the guard on line 62
fires. `prev.currentY || y` and `prev.startTime || Date.now()` are the
source's falsy fallbacks, modelled by `jsOr`. -/
def dragMove (H y t : ℚ) (st : SheetState) : SheetState :=
  if st.drag.isDragging = false ∨ st.drag.startY = none then st
  else
    let dragDistance := y - jsOr st.drag.startY 0
    let direction : Direction := if dragDistance > 0 then .down else .up
    let drag :=
      { st.drag with
        currentY := some y
        direction := some direction
        totalDistance := st.drag.totalDistance + |y - jsOr st.drag.currentY y|
        totalTime := (t - jsOr st.drag.startTime t) / 1000 }
    { st with
      drag := drag
      overlayOpacity := moveOpacity H dragDistance
      contentOffset := adjustedDragDistance H dragDistance }

/-- A JavaScript number as it can arise from dividing two finite
numbers: finite, ±Infinity, or NaN. -/
inductive JSNum where
  | num (q : ℚ)
  | inf
  | negInf
  | nan
deriving DecidableEq, Repr

/-- JS division of finite `a` by finite `b`: ordinary division when
`b ≠ 0`; `±Infinity` when `b = 0` and `a ≠ 0`; `NaN` for `0 / 0`. -/
def jsDiv (a b : ℚ) : JSNum :=
  if b = 0 then
    if a > 0 then .inf else if a < 0 then .negInf else .nan
  else .num (a / b)

/-- The JS comparison `v > c` for a possibly non-finite `v`:
`Infinity > c` is true, `-Infinity > c` and `NaN > c` are false. -/
def JSNum.gtq : JSNum → ℚ → Prop
  | .num q, c => q > c
  | .inf, _ => True
  | .negInf, _ => False
  | .nan, _ => False

instance (v : JSNum) (c : ℚ) : Decidable (JSNum.gtq v c) :=
  match v with
  | .num q => inferInstanceAs (Decidable (q > c))
  | .inf => inferInstanceAs (Decidable True)
  | .negInf => inferInstanceAs (Decidable False)
  | .nan => inferInstanceAs (Decidable False)

/-- Terminal gesture outcome of `endDrag`. -/
inductive Decision where
  | close
  | reopen
  | snapBack
deriving DecidableEq, Repr

/-- `endDrag()` with viewport height `H` (lines 94-142). Returns the
new state and the decision taken (`none` when the guard on line 95
fires). `setIsOpened(false)` / `setIsOpened(true)` are modelled by the
`isOpened` field; the unconditional reset (lines 131-139) and
`setOverlayOpacity(1)` (line 141) follow every decision. -/
def endDrag (H : ℚ) (st : SheetState) : SheetState × Option Decision :=
  if st.drag.isDragging = false ∨ st.drag.startY = none ∨
      st.drag.currentY = none ∨ st.drag.startTime = none then (st, none)
  else
    let dragDistance := st.drag.currentY.getD 0 - st.drag.startY.getD 0
    let velocity := jsDiv st.drag.totalDistance st.drag.totalTime
    let threshold := H / 2
    let fastCloseThreshold : ℚ := 500
    let decision : Decision :=
      if (dragDistance > threshold ∨ velocity.gtq fastCloseThreshold) ∧
          st.drag.direction = some Direction.down then .close
      else if st.drag.direction = some Direction.up ∧ dragDistance < threshold ∧
          velocity.gtq fastCloseThreshold then .reopen
      else .snapBack
    let opened :=
      match decision with
      | .close => false
      | .reopen => true
      | .snapBack => st.isOpened
    ({ drag := emptyDrag
       overlayOpacity := 1
       contentOffset := st.contentOffset
       isOpened := opened }, some decision)

/-- Run a list of `(y, t)` move events through `dragMove` in order. -/
def runMoves (H : ℚ) : SheetState → List (ℚ × ℚ) → SheetState
  | st, [] => st
  | st, m :: rest => runMoves H (dragMove H m.1 m.2 st) rest

/-- Sum of absolute consecutive deltas of a list of sample
coordinates. -/
def consecAbsSum : List ℚ → ℚ
  | [] => 0
  | [_] => 0
  | a :: b :: rest => |b - a| + consecAbsSum (b :: rest)

/-- The throttle utility: `lastCall` starts at 0; a call at time `now`
invokes the callback iff `now - lastCall ≥ delay`, and only then
updates `lastCall`. Returns the times at which the callback ran. -/
def throttleRun (delay : ℚ) : ℚ → List ℚ → List ℚ
  | _, [] => []
  | lastCall, now :: rest =>
    if now - lastCall ≥ delay then now :: throttleRun delay now rest
    else throttleRun delay lastCall rest

/-- `throttle(callback, delay)` applied to a sequence of call times:
the fresh closure has `lastCall = 0`. -/
def throttle (delay : ℚ) (times : List ℚ) : List ℚ :=
  throttleRun delay 0 times

/-- A DOM element as far as `withPortal` observes it: its `id`, its
class name, and an identity key distinguishing distinct
`createElement` results. -/
structure DOMElem where
  elemId : String
  className : String
  key : ℕ
deriving DecidableEq, Repr

/-- The document: the list of elements attached under `body`, plus a
counter supplying fresh identity keys. -/
structure DOMDoc where
  body : List DOMElem
  nextKey : ℕ
deriving DecidableEq, Repr

/-- A document with no elements attached. -/
def emptyDoc : DOMDoc := { body := [], nextKey := 0 }

/-- `document.querySelector('#' ++ i)`: first attached element whose
id matches. -/
def querySelectorId (d : DOMDoc) (i : String) : Option DOMElem :=
  d.body.find? (fun e => e.elemId == i)

/-- The CSS-module class `styles.iosify` (opaque generated name). -/
def stylesIosify : String := "iosifyModuleClass"

/-- `createDiv()` from withPortal.tsx (lines 4-16): query for
`#iosify`; if absent, create a div with the fixed id and class and
append it to the body; return the found or created element together
with the resulting document. -/
def createDiv (d : DOMDoc) : DOMElem × DOMDoc :=
  match querySelectorId d "iosify" with
  | some div => (div, d)
  | none =>
    let div : DOMElem := { elemId := "iosify", className := stylesIosify, key := d.nextKey }
    (div, { body := d.body ++ [div], nextKey := d.nextKey + 1 })

/-! ## Helper lemmas -/

lemma jsOr_some_zero (a : ℚ) : jsOr (some a) 0 = a := by
  by_cases h : a = 0 <;> simp [jsOr, h]

/-- Characterisation of `dragMove` on an active session. -/
lemma dragMove_active (H y t : ℚ) (st : SheetState) (y0 : ℚ)
    (hd : st.drag.isDragging = true) (h0 : st.drag.startY = some y0) :
    dragMove H y t st =
      { st with
        drag :=
          { st.drag with
            currentY := some y
            direction := some (if y - y0 > 0 then Direction.down else Direction.up)
            totalDistance := st.drag.totalDistance + |y - jsOr st.drag.currentY y|
            totalTime := (t - jsOr st.drag.startTime t) / 1000 }
        overlayOpacity := moveOpacity H (y - y0)
        contentOffset := adjustedDragDistance H (y - y0) } := by
  have hne : ¬(st.drag.isDragging = false ∨ st.drag.startY = none) := by
    simp [hd, h0]
  simp only [dragMove]
  rw [if_neg hne]
  simp only [h0, jsOr_some_zero]

/-- Sample active sessions used to instantiate the hypotheses of the
claim theorems at concrete inputs. -/
def pressedSheet : SheetState := startDrag 0 0 initialSheet

/-- A released session: net displacement 400, average velocity 600. -/
def sampleRelease : SheetState :=
  { drag :=
      { startY := some 0
        currentY := some 400
        startTime := some 0
        isDragging := true
        direction := some Direction.down
        totalDistance := 600
        totalTime := 1 }
    overlayOpacity := 1
    contentOffset := 400
    isOpened := true }

/-- A released session with `totalTime = 0` and positive accumulated
distance. -/
def staleRelease : SheetState :=
  { drag :=
      { startY := some 0
        currentY := some 100
        startTime := some 0
        isDragging := true
        direction := some Direction.down
        totalDistance := 1200
        totalTime := 0 }
    overlayOpacity := 1
    contentOffset := 100
    isOpened := true }

/-- A session that is active but has seen no move: `currentY` absent. -/
def pressedNoMove : SheetState :=
  { drag :=
      { startY := some 50
        currentY := none
        startTime := some 7
        isDragging := true
        direction := none
        totalDistance := 0
        totalTime := 0 }
    overlayOpacity := 1
    contentOffset := 0
    isOpened := true }

/-! ## Claim theorems -/

/-- C4: after every `endDrag` whose preconditions hold (active session
with `startY`, `currentY` and `startTime` present), and on every
decision branch, the session is reset exactly to the empty-state
values and `overlayOpacity` is set to 1. -/
theorem endDrag_resets (H : ℚ) (st : SheetState)
    (hd : st.drag.isDragging = true) (h0 : st.drag.startY ≠ none)
    (h1 : st.drag.currentY ≠ none) (h2 : st.drag.startTime ≠ none) :
    (endDrag H st).1.drag = emptyDrag ∧ (endDrag H st).1.overlayOpacity = 1 := by
  have hne : ¬(st.drag.isDragging = false ∨ st.drag.startY = none ∨
      st.drag.currentY = none ∨ st.drag.startTime = none) := by
    simp [hd, h0, h1, h2]
  simp only [endDrag]
  rw [if_neg hne]
  exact ⟨rfl, rfl⟩

/-- Witness for C4 at a concrete released session. -/
theorem endDrag_resets_witness :
    (endDrag 700 sampleRelease).1.drag = emptyDrag ∧
      (endDrag 700 sampleRelease).1.overlayOpacity = 1 :=
  endDrag_resets 700 sampleRelease rfl (by simp [sampleRelease])
    (by simp [sampleRelease]) (by simp [sampleRelease])

/-- C5: on a move of an active session with non-positive net
displacement `d`, the content offset equals
`max (-0.01 * H) (0.1 * d)`, whose magnitude never exceeds
`0.01 * H`; positive displacement maps 1:1. -/
theorem upward_offset_clamped (H y t : ℚ) (st : SheetState) (y0 : ℚ)
    (hH : 0 ≤ H) (hd : st.drag.isDragging = true) (h0 : st.drag.startY = some y0) :
    (dragMove H y t st).contentOffset = adjustedDragDistance H (y - y0) ∧
    (y - y0 ≤ 0 →
      adjustedDragDistance H (y - y0) = max (-(0.01 * H)) (0.1 * (y - y0)) ∧
      |adjustedDragDistance H (y - y0)| ≤ 0.01 * H) ∧
    (0 < y - y0 → adjustedDragDistance H (y - y0) = y - y0) := by
  refine ⟨?_, ?_, ?_⟩
  · rw [dragMove_active H y t st y0 hd h0]
  · intro hle
    have hnd : ¬(y - y0 > 0) := not_lt.mpr hle
    simp only [adjustedDragDistance]
    rw [if_neg hnd]
    refine ⟨by rw [mul_comm H (0.01 : ℚ), mul_comm (y - y0) (0.1 : ℚ)], ?_⟩
    have hup : max (-(H * 0.01)) ((y - y0) * 0.1) ≤ 0.01 * H := by
      apply max_le <;> nlinarith
    have hlo : -(0.01 * H) ≤ max (-(H * 0.01)) ((y - y0) * 0.1) := by
      have := le_max_left (-(H * 0.01)) ((y - y0) * 0.1)
      nlinarith [this]
    rw [abs_le]
    exact ⟨hlo, hup⟩
  · intro hpos
    simp only [adjustedDragDistance]
    rw [if_pos hpos]

/-- Witness for C5: a 100000px upward displacement on a 700px viewport
is clamped to magnitude at most 7px. -/
theorem upward_offset_clamped_witness :
    |adjustedDragDistance 700 ((-100000 : ℚ) - 0)| ≤ 0.01 * 700 :=
  ((upward_offset_clamped 700 (-100000) 0 pressedSheet 0 (by norm_num) rfl
    rfl).2.1 (by norm_num)).2

/-- C9: a release on an active session whose `currentY` is absent (no
move between press and release) is a complete no-op: no decision, no
reset, session still active, and a later move still mutates the
leftover session. -/
theorem endDrag_pressed_noop (H y t : ℚ) (st : SheetState) (y0 : ℚ)
    (hd : st.drag.isDragging = true) (h0 : st.drag.startY = some y0)
    (h1 : st.drag.currentY = none) :
    endDrag H st = (st, none) ∧
    (endDrag H st).1.drag.isDragging = true ∧
    (endDrag H st).1.drag.startY = some y0 ∧
    (dragMove H y t (endDrag H st).1).drag.currentY = some y := by
  have hguard : endDrag H st = (st, none) := by
    simp only [endDrag]
    rw [if_pos (Or.inr (Or.inr (Or.inl h1)))]
  refine ⟨hguard, ?_, ?_, ?_⟩
  · rw [hguard]; exact hd
  · rw [hguard]; exact h0
  · rw [hguard]
    rw [dragMove_active H y t st y0 hd h0]

/-- Witness for C9 at a pressed-but-unmoved session. -/
theorem endDrag_pressed_noop_witness :
    endDrag 700 pressedNoMove = (pressedNoMove, none) ∧
    (endDrag 700 pressedNoMove).1.drag.isDragging = true ∧
    (endDrag 700 pressedNoMove).1.drag.startY = some 50 ∧
    (dragMove 700 80 9 (endDrag 700 pressedNoMove).1).drag.currentY = some 80 :=
  endDrag_pressed_noop 700 80 9 pressedNoMove 50 rfl rfl rfl

/-- C10: when the previously recorded `currentY` is the coordinate 0
(or absent, as on the first move), the move contributes 0 to
`totalDistance` for every target coordinate `y`, because of the
`prev.currentY || y` falsy fallback. -/
theorem zero_currentY_no_distance (H y t : ℚ) (st : SheetState)
    (hd : st.drag.isDragging = true) (h0 : st.drag.startY ≠ none)
    (hc : st.drag.currentY = some 0 ∨ st.drag.currentY = none) :
    (dragMove H y t st).drag.totalDistance = st.drag.totalDistance := by
  have hne : ¬(st.drag.isDragging = false ∨ st.drag.startY = none) := by
    simp [hd, h0]
  have hj : jsOr st.drag.currentY y = y := by
    rcases hc with h | h <;> simp [jsOr, h]
  simp only [dragMove]
  rw [if_neg hne]
  simp [hj]

/-- Witness for C10: a 300px jump away from coordinate 0 adds no
distance. -/
theorem zero_currentY_no_distance_witness :
    (dragMove 700 300 5
      { pressedSheet with
        drag := { pressedSheet.drag with currentY := some 0 } }).drag.totalDistance =
      ({ pressedSheet with
        drag := { pressedSheet.drag with currentY := some 0 } } :
          SheetState).drag.totalDistance :=
  zero_currentY_no_distance 700 300 5 _ rfl (by simp [pressedSheet, startDrag, initialSheet])
    (Or.inl rfl)

/-- C6: the per-move overlay opacity is monotonically non-increasing
for positive displacement, reaches 0 at `H / 2` and stays 0 beyond,
equals 1 for every non-positive displacement, and always lies in
`[0, 1]`. -/
theorem overlay_opacity_profile (H : ℚ) (hH : 0 < H) :
    (∀ d1 d2 : ℚ, 0 < d1 → d1 ≤ d2 → moveOpacity H d2 ≤ moveOpacity H d1) ∧
    moveOpacity H (H / 2) = 0 ∧
    (∀ d : ℚ, H / 2 ≤ d → moveOpacity H d = 0) ∧
    (∀ d : ℚ, d ≤ 0 → moveOpacity H d = 1) ∧
    (∀ d : ℚ, 0 ≤ moveOpacity H d ∧ moveOpacity H d ≤ 1) := by
  have hzero : ∀ d : ℚ, H / 2 ≤ d → moveOpacity H d = 0 := by
    intro d hdge
    have hd0 : 0 < d := lt_of_lt_of_le (by positivity) hdge
    simp only [moveOpacity]
    rw [if_pos hd0]
    have hbody : (1 : ℚ) - |d| / (H * 0.5) ≤ 0 := by
      rw [abs_of_pos hd0, sub_nonpos, le_div_iff₀ (by positivity)]
      nlinarith
    exact max_eq_left hbody
  refine ⟨?_, hzero (H / 2) le_rfl, hzero, ?_, ?_⟩
  · intro d1 d2 h1 h12
    have h2 : 0 < d2 := lt_of_lt_of_le h1 h12
    simp only [moveOpacity]
    rw [if_pos h1, if_pos h2]
    refine max_le_max le_rfl ?_
    rw [abs_of_pos h1, abs_of_pos h2]
    have hdiv : d1 / (H * 0.5) ≤ d2 / (H * 0.5) :=
      (div_le_div_iff_of_pos_right (by positivity)).mpr h12
    linarith
  · intro d hd
    simp only [moveOpacity]
    rw [if_neg (not_lt.mpr hd)]
  · intro d
    by_cases h : d > 0
    · simp only [moveOpacity]
      rw [if_pos h]
      have hnon : (0 : ℚ) ≤ |d| / (H * 0.5) := by positivity
      exact ⟨le_max_left 0 _, max_le (by norm_num) (by linarith)⟩
    · simp only [moveOpacity]
      rw [if_neg h]
      norm_num

/-- Witness for C6: opacity hits exactly 0 at half of a 700px
viewport. -/
theorem overlay_opacity_profile_witness : moveOpacity 700 (700 / 2) = 0 :=
  (overlay_opacity_profile 700 (by norm_num)).2.1



/-- C1: for a release of an active session (all fields present) with
well-defined elapsed time, the decision is Close iff direction is down
and (net displacement exceeds half the viewport or average velocity
exceeds 500); Reopen iff direction is up, net displacement is below
half the viewport and average velocity exceeds 500; SnapBack otherwise;
and the visibility flag is set to closed / open / left unchanged
accordingly. -/
theorem endDrag_decision_rule (H : ℚ) (st : SheetState) (y0 y1 : ℚ)
    (hd : st.drag.isDragging = true) (h0 : st.drag.startY = some y0)
    (h1 : st.drag.currentY = some y1) (h2 : st.drag.startTime ≠ none)
    (ht : st.drag.totalTime ≠ 0) :
    ((endDrag H st).2 = some Decision.close ↔
      st.drag.direction = some Direction.down ∧
        (y1 - y0 > H / 2 ∨ st.drag.totalDistance / st.drag.totalTime > 500)) ∧
    ((endDrag H st).2 = some Decision.reopen ↔
      st.drag.direction = some Direction.up ∧ y1 - y0 < H / 2 ∧
        st.drag.totalDistance / st.drag.totalTime > 500) ∧
    ((endDrag H st).2 = some Decision.snapBack ↔
      ¬(st.drag.direction = some Direction.down ∧
          (y1 - y0 > H / 2 ∨ st.drag.totalDistance / st.drag.totalTime > 500)) ∧
      ¬(st.drag.direction = some Direction.up ∧ y1 - y0 < H / 2 ∧
          st.drag.totalDistance / st.drag.totalTime > 500)) ∧
    ((endDrag H st).2 = some Decision.close → (endDrag H st).1.isOpened = false) ∧
    ((endDrag H st).2 = some Decision.reopen → (endDrag H st).1.isOpened = true) ∧
    ((endDrag H st).2 = some Decision.snapBack → (endDrag H st).1.isOpened = st.isOpened) := by
  have hne : ¬(st.drag.isDragging = false ∨ st.drag.startY = none ∨
      st.drag.currentY = none ∨ st.drag.startTime = none) := by
    simp [hd, h0, h1, h2]
  have hvel : jsDiv st.drag.totalDistance st.drag.totalTime =
      JSNum.num (st.drag.totalDistance / st.drag.totalTime) := by
    simp [jsDiv, ht]
  have hdu : ¬(st.drag.direction = some Direction.down ∧
      st.drag.direction = some Direction.up) := by
    rintro ⟨ha, hb⟩
    rw [ha] at hb
    simp at hb
  simp only [endDrag]
  rw [if_neg hne]
  simp only [h0, h1, Option.getD_some, hvel, JSNum.gtq]
  split_ifs with hC hR
  · exact ⟨iff_of_true rfl ⟨hC.2, hC.1⟩,
      iff_of_false (by simp) (fun h => hdu ⟨hC.2, h.1⟩),
      iff_of_false (by simp) (fun h => h.1 ⟨hC.2, hC.1⟩),
      fun _ => rfl,
      fun h => absurd h (by simp),
      fun h => absurd h (by simp)⟩
  · exact ⟨iff_of_false (by simp) (fun h => hC ⟨h.2, h.1⟩),
      iff_of_true rfl hR,
      iff_of_false (by simp) (fun h => h.2 hR),
      fun h => absurd h (by simp),
      fun _ => rfl,
      fun h => absurd h (by simp)⟩
  · exact ⟨iff_of_false (by simp) (fun h => hC ⟨h.2, h.1⟩),
      iff_of_false (by simp) hR,
      iff_of_true rfl ⟨fun h => hC ⟨h.2, h.1⟩, hR⟩,
      fun h => absurd h (by simp),
      fun h => absurd h (by simp),
      fun _ => rfl⟩



/-- Witness for C1: 400px downward release on a 700px viewport closes
the sheet. -/
theorem endDrag_decision_rule_witness :
    (endDrag 700 sampleRelease).2 = some Decision.close :=
  (endDrag_decision_rule 700 sampleRelease 0 400 rfl rfl rfl
    (by simp [sampleRelease]) (by norm_num [sampleRelease])).1.mpr
    ⟨rfl, Or.inl (by norm_num [sampleRelease])⟩

/-- C2 amended: at a release with `totalTime = 0` the division is not
guarded: JS yields Infinity when `totalDistance > 0` (the velocity
test succeeds) and NaN when `totalDistance = 0` (the test fails), so
the decision is Close iff direction is down and (distance above
threshold or `totalDistance > 0`), and Reopen iff direction is up,
distance below threshold and `totalDistance > 0` — not SnapBack. -/
theorem endDrag_zero_elapsed (H : ℚ) (st : SheetState) (y0 y1 : ℚ)
    (hd : st.drag.isDragging = true) (h0 : st.drag.startY = some y0)
    (h1 : st.drag.currentY = some y1) (h2 : st.drag.startTime ≠ none)
    (ht : st.drag.totalTime = 0) :
    ((endDrag H st).2 = some Decision.close ↔
      st.drag.direction = some Direction.down ∧
        (y1 - y0 > H / 2 ∨ 0 < st.drag.totalDistance)) ∧
    ((endDrag H st).2 = some Decision.reopen ↔
      st.drag.direction = some Direction.up ∧ y1 - y0 < H / 2 ∧
        0 < st.drag.totalDistance) := by
  have hne : ¬(st.drag.isDragging = false ∨ st.drag.startY = none ∨
      st.drag.currentY = none ∨ st.drag.startTime = none) := by
    simp [hd, h0, h1, h2]
  have hdu : ¬(st.drag.direction = some Direction.down ∧
      st.drag.direction = some Direction.up) := by
    rintro ⟨ha, hb⟩
    rw [ha] at hb
    simp at hb
  have hdiv0 : jsDiv st.drag.totalDistance 0 =
      if st.drag.totalDistance > 0 then JSNum.inf
      else if st.drag.totalDistance < 0 then JSNum.negInf else JSNum.nan := by
    simp [jsDiv]
  have hvel : JSNum.gtq (jsDiv st.drag.totalDistance st.drag.totalTime) 500 ↔
      0 < st.drag.totalDistance := by
    rw [ht, hdiv0]
    rcases lt_trichotomy st.drag.totalDistance 0 with hlt | heq | hgt
    · rw [if_neg (by linarith), if_pos hlt]
      simp only [JSNum.gtq]
      exact iff_of_false not_false (by linarith)
    · rw [if_neg (by simp [heq]), if_neg (by simp [heq])]
      simp only [JSNum.gtq]
      exact iff_of_false not_false (by simp [heq])
    · rw [if_pos hgt]
      simp only [JSNum.gtq]
      exact iff_of_true trivial hgt
  simp only [endDrag]
  rw [if_neg hne]
  simp only [h0, h1, Option.getD_some, hvel]
  split_ifs with hC hR
  · exact ⟨iff_of_true rfl ⟨hC.2, hC.1⟩,
      iff_of_false (by simp) (fun h => hdu ⟨hC.2, h.1⟩)⟩
  · exact ⟨iff_of_false (by simp) (fun h => hC ⟨h.2, h.1⟩),
      iff_of_true rfl hR⟩
  · exact ⟨iff_of_false (by simp) (fun h => hC ⟨h.2, h.1⟩),
      iff_of_false (by simp) hR⟩

/-- Witness for the amended C2: a zero-elapsed release with positive
accumulated distance and direction down closes the sheet. -/
theorem endDrag_zero_elapsed_witness :
    (endDrag 700 staleRelease).2 = some Decision.close :=
  (endDrag_zero_elapsed 700 staleRelease 0 100 rfl rfl rfl
    (by simp [staleRelease]) rfl).1.mpr ⟨rfl, Or.inr (by norm_num [staleRelease])⟩

/-- Counterexample for C2 as stated: a reachable session (press at 0,
two same-millisecond moves to 700 and back to 100) has
`elapsedSeconds = 0`, yet the release decision is Close, not
SnapBack. -/
theorem endDrag_zero_elapsed_cex :
    (runMoves 700 (startDrag 0 0 initialSheet) [(700, 0), (100, 0)]).drag.totalTime = 0 ∧
    (endDrag 700 (runMoves 700 (startDrag 0 0 initialSheet) [(700, 0), (100, 0)])).2 =
      some Decision.close ∧
    some Decision.close ≠ some Decision.snapBack := by
  refine ⟨?_, ?_, by simp⟩
  · norm_num [runMoves, startDrag, initialSheet, emptyDrag, dragMove, jsOr, moveOpacity,
      adjustedDragDistance, Option.some_ne_none]
  · norm_num [runMoves, startDrag, initialSheet, emptyDrag, dragMove, jsOr, moveOpacity,
      adjustedDragDistance, endDrag, jsDiv, JSNum.gtq, Option.some_ne_none]



/-- Invariant: from a state whose `currentY` is a nonzero sample `c`,
running moves with nonzero sample coordinates adds exactly the sum of
absolute consecutive deltas of `c` followed by the samples. -/
lemma runMoves_totalDistance (H : ℚ) (moves : List (ℚ × ℚ)) :
    ∀ (st : SheetState) (y0 c : ℚ),
      st.drag.isDragging = true → st.drag.startY = some y0 →
      st.drag.currentY = some c → c ≠ 0 →
      (∀ p ∈ moves, p.1 ≠ 0) →
      (runMoves H st moves).drag.totalDistance =
        st.drag.totalDistance + consecAbsSum (c :: moves.map Prod.fst) := by
  induction moves with
  | nil =>
    intro st y0 c hd h0 hc hcz hmz
    simp [runMoves, consecAbsSum]
  | cons m rest ih =>
    obtain ⟨y, t⟩ := m
    intro st y0 c hd h0 hc hcz hmz
    have hy : y ≠ 0 := hmz (y, t) (List.mem_cons_self _ _)
    have hjs : jsOr st.drag.currentY y = c := by simp [jsOr, hc, hcz]
    rw [show runMoves H st ((y, t) :: rest) = runMoves H (dragMove H y t st) rest from rfl]
    rw [dragMove_active H y t st y0 hd h0]
    rw [ih _ y0 y (by exact hd) (by exact h0) (by exact rfl) hy
      (fun p hp => hmz p (List.mem_cons_of_mem _ hp))]
    simp only [hjs, List.map_cons, consecAbsSum]
    ring

/-- C3 amended: for a session started at any position and any move
sequence whose sample coordinates are all nonzero, the accumulated
distance after the moves equals the sum of absolute consecutive deltas
among the samples (the first sample after start contributes 0, its
delta being computed against itself). The nonzero proviso is forced by
the `prev.currentY || y` fallback, see the counterexample. -/
theorem accumulated_distance_consec (H y0 t0 : ℚ) (st0 : SheetState)
    (moves : List (ℚ × ℚ)) (hmz : ∀ p ∈ moves, p.1 ≠ 0) :
    (runMoves H (startDrag y0 t0 st0) moves).drag.totalDistance =
      consecAbsSum (moves.map Prod.fst) := by
  cases moves with
  | nil => simp [runMoves, startDrag, consecAbsSum]
  | cons m rest =>
    obtain ⟨y, t⟩ := m
    have hy : y ≠ 0 := hmz (y, t) (List.mem_cons_self _ _)
    rw [show runMoves H (startDrag y0 t0 st0) ((y, t) :: rest) =
        runMoves H (dragMove H y t (startDrag y0 t0 st0)) rest from rfl]
    rw [dragMove_active H y t (startDrag y0 t0 st0) y0 rfl rfl]
    rw [runMoves_totalDistance H rest _ y0 y (by exact rfl) (by exact rfl) (by exact rfl) hy
      (fun p hp => hmz p (List.mem_cons_of_mem _ hp))]
    simp [jsOr, startDrag, List.map_cons]

/-- Counterexample for C3 as stated: starting at 10 with moves at
5, 0, 8 the code accumulates 5, while the sum of absolute consecutive
deltas of the samples is 13 — a sample at coordinate 0 zeroes the next
contribution. -/
theorem accumulated_distance_consec_cex :
    (runMoves 700 (startDrag 10 0 initialSheet) [(5, 1), (0, 2), (8, 3)]).drag.totalDistance = 5 ∧
    consecAbsSum [5, 0, 8] = 13 ∧ (5 : ℚ) ≠ 13 := by
  refine ⟨?_, ?_, by norm_num⟩
  · norm_num [runMoves, startDrag, initialSheet, emptyDrag, dragMove, jsOr, moveOpacity,
      adjustedDragDistance, Option.some_ne_none]
  · norm_num [consecAbsSum]

/-- Witness for the amended C3 on a concrete reversing sequence. -/
theorem accumulated_distance_consec_witness :
    (runMoves 700 (startDrag 0 0 initialSheet) [(100, 50), (300, 80), (150, 120)]).drag.totalDistance =
      consecAbsSum [100, 300, 150] :=
  accumulated_distance_consec 700 0 0 initialSheet [(100, 50), (300, 80), (150, 120)]
    (by norm_num)



/-- Invariant: successive invocation times produced by the throttle
loop are at least `d` apart, counted from the current `lastCall`. -/
lemma chain_throttleRun (d : ℚ) (times : List ℚ) :
    ∀ lastCall : ℚ,
      List.Chain' (fun a b => a + d ≤ b) (lastCall :: throttleRun d lastCall times) := by
  induction times with
  | nil => intro lastCall; simp [throttleRun]
  | cons now rest ih =>
    intro lastCall
    by_cases h : now - lastCall ≥ d
    · rw [show throttleRun d lastCall (now :: rest) =
          if now - lastCall ≥ d then now :: throttleRun d now rest
          else throttleRun d lastCall rest from rfl, if_pos h]
      exact List.chain'_cons.mpr ⟨by linarith, ih now⟩
    · rw [show throttleRun d lastCall (now :: rest) =
          if now - lastCall ≥ d then now :: throttleRun d now rest
          else throttleRun d lastCall rest from rfl, if_neg h]
      exact ih lastCall

/-- C7 amended: invocations are spaced at least `delay` apart counted
from the initial `lastCall = 0` — so the first call is invoked only
when its clock value is at least `delay` (immediately, for epoch-like
clocks), and each later call is suppressed until `delay` has elapsed
since the last successful invocation; with times 2000, 2200, 3100 and
delay 1000 the callback runs at 2000 and 3100 only. -/
theorem throttle_contract :
    (∀ (d : ℚ) (times : List ℚ),
      List.Chain' (fun a b => a + d ≤ b) (0 :: throttle d times)) ∧
    (∀ (d t : ℚ) (ts : List ℚ), d ≤ t → (throttle d (t :: ts)).head? = some t) ∧
    throttle 1000 [2000, 2200, 3100] = [2000, 3100] := by
  refine ⟨fun d times => chain_throttleRun d times 0, ?_, ?_⟩
  · intro d t ts h
    rw [throttle, show throttleRun d 0 (t :: ts) =
        if t - 0 ≥ d then t :: throttleRun d t ts
        else throttleRun d 0 ts from rfl, if_pos (by linarith)]
    rfl
  · norm_num [throttle, throttleRun]

/-- Witness for the amended C7: a first call at clock 2000 with delay
1000 is invoked. -/
theorem throttle_contract_witness : (throttle 1000 [2000]).head? = some 2000 :=
  throttle_contract.2.1 1000 2000 [] (by norm_num)

/-- Counterexample for C7 as stated: with raw call times 0, 200, 1100
and delay 1000 the callback runs at 1100 only — the call at time 0 is
suppressed because `lastCall` starts at 0. -/
theorem throttle_first_call_cex :
    throttle 1000 [0, 200, 1100] = [1100] ∧ ([1100] : List ℚ) ≠ [0, 1100] := by
  refine ⟨?_, by simp⟩
  norm_num [throttle, throttleRun]

/-- `find?` over an append skips a prefix with no match. -/
lemma find?_append_none {α : Type} (p : α → Bool) (l1 l2 : List α)
    (h : l1.find? p = none) : (l1 ++ l2).find? p = l2.find? p := by
  rw [List.find?_append, h, Option.none_or]

/-- C8: requesting the render-target container is idempotent — when
no `#iosify` element exists, one is created, attached, and is the only
element with that id; when one exists, it is returned with the
document unchanged; and a second request after the first returns the
same element with no further change. -/
theorem createDiv_singleton :
    (∀ d : DOMDoc, querySelectorId d "iosify" = none →
      (createDiv d).1.elemId = "iosify" ∧
      (createDiv d).1 ∈ (createDiv d).2.body ∧
      (createDiv d).2.body.countP (fun e => e.elemId == "iosify") = 1) ∧
    (∀ (d : DOMDoc) (e : DOMElem), querySelectorId d "iosify" = some e →
      createDiv d = (e, d)) ∧
    (∀ d : DOMDoc, createDiv (createDiv d).2 = ((createDiv d).1, (createDiv d).2)) := by
  refine ⟨?_, ?_, ?_⟩
  · intro d hnone
    have hcount : d.body.countP (fun e => e.elemId == "iosify") = 0 := by
      rw [List.countP_eq_zero]
      exact fun e he => List.find?_eq_none.mp hnone e he
    refine ⟨?_, ?_, ?_⟩
    · simp [createDiv, hnone]
    · simp [createDiv, hnone]
    · simp [createDiv, hnone, List.countP_append, hcount, List.countP_cons]
  · intro d e he
    simp [createDiv, he]
  · intro d
    rcases hq : querySelectorId d "iosify" with _ | e
    · have hfind : querySelectorId
          { body := d.body ++ [⟨"iosify", stylesIosify, d.nextKey⟩], nextKey := d.nextKey + 1 }
          "iosify" = some ⟨"iosify", stylesIosify, d.nextKey⟩ := by
        unfold querySelectorId at hq ⊢
        rw [find?_append_none _ _ _ hq]
        simp [List.find?]
      simp only [createDiv, hq]
      rw [show (querySelectorId
          { body := d.body ++ [⟨"iosify", stylesIosify, d.nextKey⟩], nextKey := d.nextKey + 1 }
          "iosify") = some ⟨"iosify", stylesIosify, d.nextKey⟩ from hfind]
    · simp [createDiv, hq]

/-- Witness for C8 on the empty document. -/
theorem createDiv_singleton_witness :
    (createDiv emptyDoc).1.elemId = "iosify" ∧
    (createDiv emptyDoc).1 ∈ (createDiv emptyDoc).2.body ∧
    (createDiv emptyDoc).2.body.countP (fun e => e.elemId == "iosify") = 1 :=
  createDiv_singleton.1 emptyDoc rfl


end Iosify
